import Mathlib

/-!
# Protocol buffer bundle (`pkg/protocol/buffer.go`)

A shallow embedding of the pooled `ProtocolBuffers` bundle, its lifecycle
adapter `protocolBufferCtx` (`New`, `Reset`) and its eight accessors.

Go values with identity are modelled with explicit heaps:

* a map value `map[string]string` is either `nil` or a reference (an address)
  to a map object living in `State.maps`;
* a `*ProtocolBuffers` is either `nil` or an address into `State.bundles`;
* a `types.IoBuffer` slot is `none` (nil interface) or `some b`.

The buffer pool (`buffer.GetIoBuffer`) lives in another package; it is taken
as a parameter (`BufferPool`), with its own state threaded through `State.pool`.
-/

namespace Protocol

/-! ## Go runtime values -/

/-- A run-time panic of the Go program. -/
inductive Panic where
  /-- Store or load through a nil pointer. -/
  | nilPointerDereference
  /-- The statement `m[k] = v` on a nil map. -/
  | assignmentToNilMap
  deriving DecidableEq, Repr

/-- Contents of one map object: the entries, looked up first-match.  Maps built
by `assign` from an empty map hold every key at most once. -/
abbrev GoMap := List (String × String)

/-- A Go map value: `none` is the nil map, `some a` refers to the map object at
address `a`. -/
abbrev MapRef := Option Nat

/-- A Go `*ProtocolBuffers`: `none` is the nil pointer. -/
abbrev Ptr := Option Nat

namespace GoMap

/-- The keys of a map object, in iteration order. -/
def keys (m : GoMap) : List String := m.map Prod.fst

/-- The value `m[k]` of a map object, if the key is present. -/
def index (m : GoMap) (k : String) : Option String :=
  match m with
  | [] => none
  | (k', v) :: rest => if k' = k then some v else index rest k

/-- The builtin `delete(m, k)` on a map object. -/
def delete (m : GoMap) (k : String) : GoMap := m.filter (fun e => !decide (e.1 = k))

/-- The statement `m[k] = v` on a map object. -/
def assign (m : GoMap) (k v : String) : GoMap := (k, v) :: delete m k

/-- The builtin `len(m)` on a map object: the number of distinct keys. -/
def len (m : GoMap) : Nat := (keys m).dedup.length

end GoMap

/-! ## The bundle -/

/-- The struct `ProtocolBuffers`; `β` is the type of `types.IoBuffer` values. -/
structure ProtocolBuffers (β : Type) where
  reqData : Option β
  reqHeader : Option β
  reqHeaders : MapRef
  reqTrailers : MapRef
  rspData : Option β
  rspHeader : Option β
  rspHeaders : MapRef
  rspTrailers : MapRef

/-- The zero value of `ProtocolBuffers`, as produced by `new(ProtocolBuffers)`. -/
def ProtocolBuffers.zero (β : Type) : ProtocolBuffers β :=
  { reqData := none, reqHeader := none, reqHeaders := none, reqTrailers := none,
    rspData := none, rspHeader := none, rspHeaders := none, rspTrailers := none }

/-- The buffer pool collaborator `buffer.GetIoBuffer(size)`, with pool state `σ`. -/
structure BufferPool (σ β : Type) where
  GetIoBuffer : Int → σ → β × σ

/-- Program state: the heap of bundles, the heap of map objects and the state of
the buffer pool.  `nextBundle` and `nextMap` are the next free addresses. -/
structure State (σ β : Type) where
  bundles : Nat → ProtocolBuffers β
  nextBundle : Nat
  maps : Nat → GoMap
  nextMap : Nat
  pool : σ

/-- An empty-interface value as far as `Reset` can tell values apart: a
`*ProtocolBuffers` (possibly a nil pointer), a value of some other dynamic
type, or the nil interface. -/
inductive Value where
  | protocolBuffers (p : Ptr)
  | other (typeName : String)
  | nilInterface
  deriving DecidableEq, Repr

/-- The comma-ok type assertion `p, ok := i.(*ProtocolBuffers)`: on a mismatch
`p` is the zero value of the pointer type (nil) and `ok` is false. -/
def Value.assertProtocolBuffers (i : Value) : Ptr × Bool :=
  match i with
  | .protocolBuffers p => (p, true)
  | .other _ => (none, false)
  | .nilInterface => (none, false)

variable {σ β : Type}

/-! ## Heap primitives -/

/-- Load `*p`. -/
def State.load (s : State σ β) (p : Ptr) : Except Panic (ProtocolBuffers β) :=
  match p with
  | none => .error .nilPointerDereference
  | some a => .ok (s.bundles a)

/-- Overwrite the bundle at address `a` with `f` applied to it. -/
def State.storeAt (s : State σ β) (a : Nat)
    (f : ProtocolBuffers β → ProtocolBuffers β) : State σ β :=
  { s with bundles := Function.update s.bundles a (f (s.bundles a)) }

/-- A field store `p.field = ...` through a possibly nil pointer. -/
def State.store (s : State σ β) (p : Ptr)
    (f : ProtocolBuffers β → ProtocolBuffers β) : Except Panic (State σ β) :=
  match p with
  | none => .error .nilPointerDereference
  | some a => .ok (s.storeAt a f)

/-- The builtin `make(map[string]string, hint)`: a fresh empty map object.  The
capacity hint has no observable effect. -/
def State.makeMap (s : State σ β) (_hint : Int) : MapRef × State σ β :=
  (some s.nextMap,
   { s with maps := Function.update s.maps s.nextMap [], nextMap := s.nextMap + 1 })

/-- The builtin `new(ProtocolBuffers)`: a fresh zeroed bundle. -/
def State.newProtocolBuffers (s : State σ β) : Nat × State σ β :=
  (s.nextBundle,
   { s with bundles := Function.update s.bundles s.nextBundle (ProtocolBuffers.zero β),
            nextBundle := s.nextBundle + 1 })

/-- The builtin `len(m)` of a map value; the nil map has length zero. -/
def State.mapLen (s : State σ β) (m : MapRef) : Nat :=
  match m with
  | none => 0
  | some a => (s.maps a).len

/-- The expression `m[k]` on a map value; the nil map holds nothing. -/
def State.mapIndex (s : State σ β) (m : MapRef) (k : String) : Option String :=
  match m with
  | none => none
  | some a => (s.maps a).index k

/-- The keys a `for k := range m` visits; none for the nil map. -/
def State.mapKeys (s : State σ β) (m : MapRef) : List String :=
  match m with
  | none => []
  | some a => (s.maps a).keys

/-- The builtin `delete(m, k)` on a map value; a no-op on the nil map. -/
def State.mapDelete (s : State σ β) (m : MapRef) (k : String) : State σ β :=
  match m with
  | none => s
  | some a => { s with maps := Function.update s.maps a ((s.maps a).delete k) }

/-- The statement `m[k] = v` on a map value; panics on the nil map. -/
def State.mapAssign (s : State σ β) (m : MapRef) (k v : String) :
    Except Panic (State σ β) :=
  match m with
  | none => .error .assignmentToNilMap
  | some a => .ok { s with maps := Function.update s.maps a ((s.maps a).assign k v) }

/-! ## Package-level variables

Declared with `var` and assigned nowhere in the file, so they keep their
initial values. -/

/-- Go: `var defaultMapSize = 1 << 3`. -/
def defaultMapSize : Int := 1 <<< 3

/-- Go: `var defaultDataSize = 1 << 10`. -/
def defaultDataSize : Int := 1 <<< 10

/-- Go: `var defaultHeaderSize = 1 << 5`. -/
def defaultHeaderSize : Int := 1 <<< 5

/-! ## `protocolBufferCtx` -/

/-- Go: `func (ctx protocolBufferCtx) New() interface`. -/
def New (s : State σ β) : Value × State σ β :=
  let (p, s) := s.newProtocolBuffers
  let (m, s) := s.makeMap defaultMapSize
  let s := s.storeAt p (fun b => { b with reqHeaders := m })
  let (m, s) := s.makeMap defaultMapSize
  let s := s.storeAt p (fun b => { b with rspHeaders := m })
  let (m, s) := s.makeMap 0
  let s := s.storeAt p (fun b => { b with reqTrailers := m })
  let (m, s) := s.makeMap 0
  let s := s.storeAt p (fun b => { b with rspTrailers := m })
  (.protocolBuffers (some p), s)

/-- The loop `for k := range p.f` with body `delete(p.f, k)` for a map field `f`
of the bundle at address `a`: the field is read once for the range and again
in every iteration. -/
def rangeDelete (f : ProtocolBuffers β → MapRef) (a : Nat) (s : State σ β) : State σ β :=
  (s.mapKeys (f (s.bundles a))).foldl (fun st k => st.mapDelete (f (st.bundles a)) k) s

/-- The same loop through a possibly nil pointer `p`. -/
def rangeDeleteField (f : ProtocolBuffers β → MapRef) (p : Ptr) (s : State σ β) :
    Except Panic (State σ β) :=
  match p with
  | none => .error .nilPointerDereference
  | some a => .ok (rangeDelete f a s)

/-- Go: `func (ctx protocolBufferCtx) Reset(i interface)`. -/
def Reset (i : Value) (s : State σ β) : Except Panic (State σ β) := do
  let p := i.assertProtocolBuffers.1
  let s ← s.store p (fun b => { b with reqData := none })
  let s ← s.store p (fun b => { b with reqHeader := none })
  let s ← s.store p (fun b => { b with rspData := none })
  let s ← s.store p (fun b => { b with rspHeader := none })
  let s ← rangeDeleteField (fun b => b.reqHeaders) p s
  let s ← rangeDeleteField (fun b => b.reqTrailers) p s
  let s ← rangeDeleteField (fun b => b.rspHeaders) p s
  let s ← rangeDeleteField (fun b => b.rspTrailers) p s
  return s

/-! ## Accessors -/

/-- Go: `func (p *ProtocolBuffers) GetReqData(size int) types.IoBuffer`. -/
def GetReqData (pool : BufferPool σ β) (p : Ptr) (size : Int) (s : State σ β) :
    Except Panic (Option β × State σ β) := do
  let size := if size ≤ 0 then defaultDataSize else size
  let (b, pl) := pool.GetIoBuffer size s.pool
  let s ← ({ s with pool := pl } : State σ β).store p (fun x => { x with reqData := some b })
  let x ← s.load p
  return (x.reqData, s)

/-- Go: `func (p *ProtocolBuffers) GetReqHeader(size int) types.IoBuffer`. -/
def GetReqHeader (pool : BufferPool σ β) (p : Ptr) (size : Int) (s : State σ β) :
    Except Panic (Option β × State σ β) := do
  let size := if size ≤ 0 then defaultHeaderSize else size
  let (b, pl) := pool.GetIoBuffer size s.pool
  let s ← ({ s with pool := pl } : State σ β).store p (fun x => { x with reqHeader := some b })
  let x ← s.load p
  return (x.reqHeader, s)

/-- Go: `func (p *ProtocolBuffers) GetReqHeaders() map[string]string`. -/
def GetReqHeaders (p : Ptr) (s : State σ β) : Except Panic (MapRef × State σ β) := do
  let x ← s.load p
  return (x.reqHeaders, s)

/-- Go: `func (p *ProtocolBuffers) GetReqTailers() map[string]string`. -/
def GetReqTailers (p : Ptr) (s : State σ β) : Except Panic (MapRef × State σ β) := do
  let x ← s.load p
  return (x.reqTrailers, s)

/-- Go: `func (p *ProtocolBuffers) GetRspData(size int) types.IoBuffer`. -/
def GetRspData (pool : BufferPool σ β) (p : Ptr) (size : Int) (s : State σ β) :
    Except Panic (Option β × State σ β) := do
  let size := if size ≤ 0 then defaultDataSize else size
  let (b, pl) := pool.GetIoBuffer size s.pool
  let s ← ({ s with pool := pl } : State σ β).store p (fun x => { x with rspData := some b })
  let x ← s.load p
  return (x.rspData, s)

/-- Go: `func (p *ProtocolBuffers) GetRspHeader(size int) types.IoBuffer`. -/
def GetRspHeader (pool : BufferPool σ β) (p : Ptr) (size : Int) (s : State σ β) :
    Except Panic (Option β × State σ β) := do
  let size := if size ≤ 0 then defaultHeaderSize else size
  let (b, pl) := pool.GetIoBuffer size s.pool
  let s ← ({ s with pool := pl } : State σ β).store p (fun x => { x with rspHeader := some b })
  let x ← s.load p
  return (x.rspHeader, s)

/-- Go: `func (p *ProtocolBuffers) GetRspHeaders() map[string]string`. -/
def GetRspHeaders (p : Ptr) (s : State σ β) : Except Panic (MapRef × State σ β) := do
  let x ← s.load p
  return (x.rspHeaders, s)

/-- Go: `func (p *ProtocolBuffers) GetRspTailers() map[string]string`. -/
def GetRspTailers (p : Ptr) (s : State σ β) : Except Panic (MapRef × State σ β) := do
  let x ← s.load p
  return (x.rspTrailers, s)

/-! ## Definitions used to state the results -/

/-- The state in which the map object behind `m` has been emptied in place. -/
def State.cleared (s : State σ β) (m : MapRef) : State σ β :=
  match m with
  | none => s
  | some a => { s with maps := Function.update s.maps a [] }

/-- The bundle `b` with its four buffer slots set to nil. -/
def ProtocolBuffers.dropBuffers (b : ProtocolBuffers β) : ProtocolBuffers β :=
  { b with reqData := none, reqHeader := none, rspData := none, rspHeader := none }

/-- Closed form of the state `Reset` leaves behind for the bundle at `a`. -/
def State.afterReset (s : State σ β) (a : Nat) : State σ β :=
  (((({ s with bundles := Function.update s.bundles a (s.bundles a).dropBuffers }
        : State σ β).cleared (s.bundles a).reqHeaders).cleared
      (s.bundles a).reqTrailers).cleared (s.bundles a).rspHeaders).cleared
    (s.bundles a).rspTrailers

/-- What a caller can observe of a bundle without writing to it: whether each
of the four maps is empty and whether each of the four buffer slots is nil. -/
structure Observed where
  reqHeadersEmpty : Bool
  reqTrailersEmpty : Bool
  rspHeadersEmpty : Bool
  rspTrailersEmpty : Bool
  reqDataNil : Bool
  reqHeaderNil : Bool
  rspDataNil : Bool
  rspHeaderNil : Bool
  deriving DecidableEq, Repr

/-- The observation of the bundle at address `a` in state `s`. -/
def State.observe (s : State σ β) (a : Nat) : Observed :=
  { reqHeadersEmpty := decide (s.mapLen (s.bundles a).reqHeaders = 0),
    reqTrailersEmpty := decide (s.mapLen (s.bundles a).reqTrailers = 0),
    rspHeadersEmpty := decide (s.mapLen (s.bundles a).rspHeaders = 0),
    rspTrailersEmpty := decide (s.mapLen (s.bundles a).rspTrailers = 0),
    reqDataNil := (s.bundles a).reqData.isNone,
    reqHeaderNil := (s.bundles a).reqHeader.isNone,
    rspDataNil := (s.bundles a).rspData.isNone,
    rspHeaderNil := (s.bundles a).rspHeader.isNone }

/-- A map accessor `get` for the field `field` is stable on the bundle at `a` in
state `s`: two calls in a row return the same map value (the field itself)
and leave the state as it was; on a nil map an insertion through the result
panics, otherwise it succeeds and the entry is found through the result of
a further call, made before or after the insertion. -/
def MapAccessorStable (get : Ptr → State σ β → Except Panic (MapRef × State σ β))
    (field : ProtocolBuffers β → MapRef) (a : Nat) (s : State σ β) (k v : String) : Prop :=
  ∃ r1 s1 r2 s2, get (some a) s = .ok (r1, s1) ∧ get (some a) s1 = .ok (r2, s2) ∧
    r1 = field (s.bundles a) ∧ r2 = r1 ∧ s1 = s ∧ s2 = s ∧
    match r1 with
    | none => s2.mapAssign r1 k v = .error .assignmentToNilMap
    | some _ =>
      ∃ s3, s2.mapAssign r1 k v = .ok s3 ∧ s3.mapIndex r2 k = some v ∧
        get (some a) s3 = .ok (r1, s3)

/-! ## Caller-side use of a bundle

What a protocol codec does with the bundle it holds: it calls accessors,
writes to and deletes from the maps the map accessors return, and the
registry calls `Reset` on it. -/

/-- The four map fields of a bundle. -/
inductive MapField where
  | reqHeaders
  | reqTrailers
  | rspHeaders
  | rspTrailers
  deriving DecidableEq, Repr

/-- The field of the struct a `MapField` names. -/
def MapField.proj (f : MapField) (b : ProtocolBuffers β) : MapRef :=
  match f with
  | .reqHeaders => b.reqHeaders
  | .reqTrailers => b.reqTrailers
  | .rspHeaders => b.rspHeaders
  | .rspTrailers => b.rspTrailers

/-- The accessor method that returns a map field. -/
def MapField.get (f : MapField) (p : Ptr) (s : State σ β) :
    Except Panic (MapRef × State σ β) :=
  match f with
  | .reqHeaders => GetReqHeaders p s
  | .reqTrailers => GetReqTailers p s
  | .rspHeaders => GetRspHeaders p s
  | .rspTrailers => GetRspTailers p s

/-- One use of the bundle behind the pointer `p`. -/
inductive Call where
  /-- The call `p.GetReqData(size)`. -/
  | getReqData (size : Int)
  /-- The call `p.GetReqHeader(size)`. -/
  | getReqHeader (size : Int)
  /-- The call `p.GetRspData(size)`. -/
  | getRspData (size : Int)
  /-- The call `p.GetRspHeader(size)`. -/
  | getRspHeader (size : Int)
  /-- A call of the map accessor of field `f`. -/
  | getMap (f : MapField)
  /-- The statement `m[k] = v` on the map `m` the accessor of field `f` returns. -/
  | insert (f : MapField) (k v : String)
  /-- The statement `delete(m, k)` on the map `m` the accessor of field `f` returns. -/
  | delete (f : MapField) (k : String)
  /-- The call `protocolBufferCtx.Reset(p)`. -/
  | reset
  deriving Repr

/-- The effect of one use of the bundle behind `p` on the state. -/
def Call.run (pool : BufferPool σ β) (p : Ptr) (c : Call) (s : State σ β) :
    Except Panic (State σ β) :=
  match c with
  | .getReqData size => (GetReqData pool p size s).map Prod.snd
  | .getReqHeader size => (GetReqHeader pool p size s).map Prod.snd
  | .getRspData size => (GetRspData pool p size s).map Prod.snd
  | .getRspHeader size => (GetRspHeader pool p size s).map Prod.snd
  | .getMap f => (f.get p s).map Prod.snd
  | .insert f k v => (f.get p s).bind (fun r => r.2.mapAssign r.1 k v)
  | .delete f k => (f.get p s).map (fun r => r.2.mapDelete r.1 k)
  | .reset => Reset (.protocolBuffers p) s

/-- A finite sequence of uses, one after the other; a panic ends the run. -/
def runCalls (pool : BufferPool σ β) (p : Ptr) (cs : List Call) (s : State σ β) :
    Except Panic (State σ β) :=
  match cs with
  | [] => .ok s
  | c :: rest => (c.run pool p s).bind (runCalls pool p rest)

/-- All four map fields of a bundle are non-nil. -/
def ProtocolBuffers.MapsNonNil (b : ProtocolBuffers β) : Prop :=
  b.reqHeaders ≠ none ∧ b.reqTrailers ≠ none ∧ b.rspHeaders ≠ none ∧ b.rspTrailers ≠ none

/-! ## An example buffer pool

A concrete pool used to run the accessors on concrete inputs: a buffer is the
pair of its capacity and a serial number, and the pool hands out a buffer of
exactly the requested capacity. -/

/-- An example pool: state is the number of buffers handed out so far. -/
def examplePool : BufferPool Nat (Int × Nat) :=
  { GetIoBuffer := fun n c => ((n, c), c + 1) }

/-- Capacity of an example buffer. -/
def exampleCap (b : Int × Nat) : Int := b.1

/-- An example state: no bundle and no map allocated yet. -/
def exampleState : State Nat (Int × Nat) :=
  { bundles := fun _ => ProtocolBuffers.zero (Int × Nat), nextBundle := 0,
    maps := fun _ => [], nextMap := 0, pool := 0 }

/-- An example state with one bundle in use at address `0`: both buffer slots
of the request side set, request headers and response trailers populated. -/
def exampleBusyState : State Nat (Int × Nat) :=
  { bundles := fun _ =>
      { reqData := some (2048, 0), reqHeader := some (32, 1), reqHeaders := some 0,
        reqTrailers := some 2, rspData := none, rspHeader := none, rspHeaders := some 1,
        rspTrailers := some 3 },
    nextBundle := 1,
    maps := fun m =>
      if m = 0 then [("host", "example.com"), ("accept", "*")]
      else if m = 3 then [("checksum", "abc")] else [],
    nextMap := 4, pool := 2 }

/-! ## Auxiliary facts about the heap and the clearing loop -/

theorem GoMap.delete_nil (k : String) : GoMap.delete [] k = [] := rfl

theorem GoMap.index_nil (k : String) : GoMap.index [] k = none := rfl

theorem GoMap.len_nil : GoMap.len [] = 0 := rfl

theorem State.mapDelete_bundles (s : State σ β) (m : MapRef) (k : String) :
    (s.mapDelete m k).bundles = s.bundles := by
  cases m <;> rfl

/-- Deleting a list of keys one after the other, through the field `f` of the
bundle at `a`, filters the map object behind that field. -/
theorem foldl_mapDelete (f : ProtocolBuffers β → MapRef) (a : Nat) (ks : List String) :
    ∀ s : State σ β,
      ks.foldl (fun st k => st.mapDelete (f (st.bundles a)) k) s =
        match f (s.bundles a) with
        | none => s
        | some ad =>
          { s with
            maps := Function.update s.maps ad
              ((s.maps ad).filter (fun e => !decide (e.1 ∈ ks))) } := by
  induction ks with
  | nil =>
    intro s
    cases h : f (s.bundles a) with
    | none => simp
    | some ad => simp
  | cons k ks ih =>
    intro s
    rw [List.foldl_cons, ih]
    rw [State.mapDelete_bundles]
    cases h : f (s.bundles a) with
    | none => simp [State.mapDelete]
    | some ad =>
      simp only [State.mapDelete, Function.update_same, Function.update_idem, GoMap.delete,
        List.filter_filter]
      refine congrArg (fun g => State.mk _ _ g _ _) (congrArg (Function.update s.maps ad) ?_)
      apply List.filter_congr
      intro e _
      by_cases h1 : e.1 = k <;> by_cases h2 : e.1 ∈ ks <;> simp [h1, h2]

theorem rangeDelete_eq (f : ProtocolBuffers β → MapRef) (a : Nat) (s : State σ β) :
    rangeDelete f a s = s.cleared (f (s.bundles a)) := by
  unfold rangeDelete
  rw [foldl_mapDelete]
  cases h : f (s.bundles a) with
  | none => simp [State.cleared, State.mapKeys]
  | some ad =>
    simp only [State.cleared, State.mapKeys]
    refine congrArg (fun g => State.mk _ _ g _ _) (congrArg (Function.update s.maps ad) ?_)
    rw [List.filter_eq_nil_iff]
    intro e he
    simp only [GoMap.keys, Bool.not_eq_true', decide_eq_false_iff_not, not_not, Bool.not_eq_true]
    simpa using List.mem_map_of_mem Prod.fst he

theorem State.cleared_bundles (s : State σ β) (m : MapRef) :
    (s.cleared m).bundles = s.bundles := by
  cases m <;> rfl

theorem State.cleared_nextMap (s : State σ β) (m : MapRef) :
    (s.cleared m).nextMap = s.nextMap := by
  cases m <;> rfl

theorem State.cleared_nextBundle (s : State σ β) (m : MapRef) :
    (s.cleared m).nextBundle = s.nextBundle := by
  cases m <;> rfl

theorem State.cleared_pool (s : State σ β) (m : MapRef) :
    (s.cleared m).pool = s.pool := by
  cases m <;> rfl

theorem State.cleared_maps (s : State σ β) (m : MapRef) (x : Nat) :
    (s.cleared m).maps x = if m = some x then [] else s.maps x := by
  cases m with
  | none => simp [State.cleared]
  | some ad =>
    by_cases h : x = ad
    · subst h; simp [State.cleared]
    · have h' : ad ≠ x := fun e => h e.symm
      simp [State.cleared, Function.update_noteq h, h']

theorem Reset_eq (a : Nat) (s : State σ β) :
    Reset (.protocolBuffers (some a)) s = .ok (s.afterReset a) := by
  simp only [Reset, Value.assertProtocolBuffers, State.store, State.storeAt, rangeDeleteField,
    rangeDelete_eq, bind, Except.bind, pure, Except.pure, Function.update_same,
    Function.update_idem, State.cleared_bundles, State.afterReset,
    ProtocolBuffers.dropBuffers]

theorem afterReset_bundle (a : Nat) (s : State σ β) :
    (s.afterReset a).bundles a = (s.bundles a).dropBuffers := by
  simp [State.afterReset, State.cleared_bundles]

theorem afterReset_maps (a : Nat) (s : State σ β) (x : Nat) :
    (s.afterReset a).maps x =
      if (s.bundles a).reqHeaders = some x ∨ (s.bundles a).reqTrailers = some x ∨
          (s.bundles a).rspHeaders = some x ∨ (s.bundles a).rspTrailers = some x
      then [] else s.maps x := by
  simp only [State.afterReset, State.cleared_maps]
  by_cases h1 : (s.bundles a).reqHeaders = some x <;>
  by_cases h2 : (s.bundles a).reqTrailers = some x <;>
  by_cases h3 : (s.bundles a).rspHeaders = some x <;>
  by_cases h4 : (s.bundles a).rspTrailers = some x <;>
  simp [h1, h2, h3, h4]

/-- After `Reset`, a map value held by one of the four map fields is empty. -/
theorem afterReset_mapLen (a : Nat) (s : State σ β) (m : MapRef)
    (h : m = (s.bundles a).reqHeaders ∨ m = (s.bundles a).reqTrailers ∨
      m = (s.bundles a).rspHeaders ∨ m = (s.bundles a).rspTrailers) :
    (s.afterReset a).mapLen m = 0 ∧ ∀ k, (s.afterReset a).mapIndex m k = none := by
  cases m with
  | none => exact ⟨rfl, fun _ => rfl⟩
  | some x =>
    have hx : (s.afterReset a).maps x = [] := by
      rw [afterReset_maps, if_pos]
      rcases h with h | h | h | h
      · exact Or.inl h.symm
      · exact Or.inr (Or.inl h.symm)
      · exact Or.inr (Or.inr (Or.inl h.symm))
      · exact Or.inr (Or.inr (Or.inr h.symm))
    simp [State.mapLen, State.mapIndex, hx, GoMap.len_nil, GoMap.index_nil]

/-! ## Closed forms of the accessors and of `New` -/

theorem GetReqData_eq (pool : BufferPool σ β) (a : Nat) (size : Int) (s : State σ β) :
    GetReqData pool (some a) size s =
      .ok (some (pool.GetIoBuffer (if size ≤ 0 then defaultDataSize else size) s.pool).1,
        ({ s with
            pool := (pool.GetIoBuffer (if size ≤ 0 then defaultDataSize else size) s.pool).2 }
          : State σ β).storeAt a (fun x =>
            { x with
              reqData :=
                some (pool.GetIoBuffer (if size ≤ 0 then defaultDataSize else size) s.pool).1 })) := by
  simp [GetReqData, State.store, State.load, State.storeAt, bind, Except.bind, pure, Except.pure]

theorem GetReqHeader_eq (pool : BufferPool σ β) (a : Nat) (size : Int) (s : State σ β) :
    GetReqHeader pool (some a) size s =
      .ok (some (pool.GetIoBuffer (if size ≤ 0 then defaultHeaderSize else size) s.pool).1,
        ({ s with
            pool := (pool.GetIoBuffer (if size ≤ 0 then defaultHeaderSize else size) s.pool).2 }
          : State σ β).storeAt a (fun x =>
            { x with
              reqHeader :=
                some (pool.GetIoBuffer (if size ≤ 0 then defaultHeaderSize else size) s.pool).1 })) := by
  simp [GetReqHeader, State.store, State.load, State.storeAt, bind, Except.bind, pure, Except.pure]

theorem GetRspData_eq (pool : BufferPool σ β) (a : Nat) (size : Int) (s : State σ β) :
    GetRspData pool (some a) size s =
      .ok (some (pool.GetIoBuffer (if size ≤ 0 then defaultDataSize else size) s.pool).1,
        ({ s with
            pool := (pool.GetIoBuffer (if size ≤ 0 then defaultDataSize else size) s.pool).2 }
          : State σ β).storeAt a (fun x =>
            { x with
              rspData :=
                some (pool.GetIoBuffer (if size ≤ 0 then defaultDataSize else size) s.pool).1 })) := by
  simp [GetRspData, State.store, State.load, State.storeAt, bind, Except.bind, pure, Except.pure]

theorem GetRspHeader_eq (pool : BufferPool σ β) (a : Nat) (size : Int) (s : State σ β) :
    GetRspHeader pool (some a) size s =
      .ok (some (pool.GetIoBuffer (if size ≤ 0 then defaultHeaderSize else size) s.pool).1,
        ({ s with
            pool := (pool.GetIoBuffer (if size ≤ 0 then defaultHeaderSize else size) s.pool).2 }
          : State σ β).storeAt a (fun x =>
            { x with
              rspHeader :=
                some (pool.GetIoBuffer (if size ≤ 0 then defaultHeaderSize else size) s.pool).1 })) := by
  simp [GetRspHeader, State.store, State.load, State.storeAt, bind, Except.bind, pure, Except.pure]

theorem defaultDataSize_eq : defaultDataSize = 1024 := by decide

theorem defaultHeaderSize_eq : defaultHeaderSize = 32 := by decide

/-- The capacity asked of the pool, in the form the specification uses. -/
theorem requested_eq (d size : Int) :
    (if size ≤ 0 then d else size) = (if 0 < size then size else d) := by
  by_cases h : 0 < size
  · rw [if_pos h, if_neg (not_le.mpr h)]
  · rw [if_neg h, if_pos (not_lt.mp h)]

theorem New_fst (s : State σ β) : (New s).1 = .protocolBuffers (some s.nextBundle) := rfl

theorem New_bundle (s : State σ β) :
    (New s).2.bundles s.nextBundle =
      { ProtocolBuffers.zero β with
        reqHeaders := some s.nextMap, rspHeaders := some (s.nextMap + 1),
        reqTrailers := some (s.nextMap + 2), rspTrailers := some (s.nextMap + 3) } := by
  simp [New, State.newProtocolBuffers, State.makeMap, State.storeAt, ProtocolBuffers.zero]

theorem New_maps (s : State σ β) :
    (New s).2.maps =
      Function.update (Function.update (Function.update (Function.update s.maps
        s.nextMap []) (s.nextMap + 1) []) (s.nextMap + 2) []) (s.nextMap + 3) [] := by
  simp [New, State.newProtocolBuffers, State.makeMap, State.storeAt]

theorem New_maps_fresh (s : State σ β) (i : Nat) (h : i < 4) :
    (New s).2.maps (s.nextMap + i) = [] := by
  rw [New_maps]
  simp only [Function.update_apply]
  split_ifs <;> first | rfl | omega

theorem New_mapLen (s : State σ β) (i : Nat) (h : i < 4) :
    (New s).2.mapLen (some (s.nextMap + i)) = 0 ∧
      ∀ k, (New s).2.mapIndex (some (s.nextMap + i)) k = none := by
  simp [State.mapLen, State.mapIndex, New_maps_fresh s i h, GoMap.len_nil, GoMap.index_nil]

/-! ## Runs of caller-side uses, and `Reset` applied twice -/

theorem MapField.get_eq (f : MapField) (a : Nat) (s : State σ β) :
    f.get (some a) s = .ok (f.proj (s.bundles a), s) := by
  cases f <;> rfl

theorem mapsNonNil_iff (b : ProtocolBuffers β) :
    b.MapsNonNil ↔ ∀ f : MapField, f.proj b ≠ none := by
  constructor
  · intro h f
    cases f
    · exact h.1
    · exact h.2.1
    · exact h.2.2.1
    · exact h.2.2.2
  · intro h
    exact ⟨h .reqHeaders, h .reqTrailers, h .rspHeaders, h .rspTrailers⟩

/-- One use of a bundle whose maps are non-nil does not panic and leaves every
map field holding the map value it held. -/
theorem Call.run_keeps_fields (pool : BufferPool σ β) (a : Nat) (c : Call) (s : State σ β)
    (h : (s.bundles a).MapsNonNil) :
    ∃ s', c.run pool (some a) s = .ok s' ∧
      ∀ f : MapField, f.proj (s'.bundles a) = f.proj (s.bundles a) := by
  cases c with
  | getReqData size =>
    refine ⟨_, by rw [Call.run, GetReqData_eq]; rfl, ?_⟩
    intro f
    cases f <;> simp [MapField.proj, State.storeAt]
  | getReqHeader size =>
    refine ⟨_, by rw [Call.run, GetReqHeader_eq]; rfl, ?_⟩
    intro f
    cases f <;> simp [MapField.proj, State.storeAt]
  | getRspData size =>
    refine ⟨_, by rw [Call.run, GetRspData_eq]; rfl, ?_⟩
    intro f
    cases f <;> simp [MapField.proj, State.storeAt]
  | getRspHeader size =>
    refine ⟨_, by rw [Call.run, GetRspHeader_eq]; rfl, ?_⟩
    intro f
    cases f <;> simp [MapField.proj, State.storeAt]
  | getMap f =>
    exact ⟨s, by rw [Call.run, MapField.get_eq]; rfl, fun _ => rfl⟩
  | insert f k v =>
    have hf := (mapsNonNil_iff _).mp h f
    obtain ⟨m, hm⟩ := Option.ne_none_iff_exists'.mp hf
    refine ⟨{ s with maps := Function.update s.maps m ((s.maps m).assign k v) }, ?_,
      fun _ => rfl⟩
    rw [Call.run, MapField.get_eq]
    simp [Except.bind, hm, State.mapAssign]
  | delete f k =>
    refine ⟨s.mapDelete (f.proj (s.bundles a)) k, by rw [Call.run, MapField.get_eq]; rfl, ?_⟩
    intro g
    rw [State.mapDelete_bundles]
  | reset =>
    refine ⟨s.afterReset a, by rw [Call.run, Reset_eq], ?_⟩
    intro f
    rw [afterReset_bundle]
    cases f <;> rfl

/-- A run of uses of a bundle whose maps are non-nil does not panic and leaves
every map field holding the map value it held. -/
theorem runCalls_keeps_fields (pool : BufferPool σ β) (a : Nat) (cs : List Call) :
    ∀ s : State σ β, (s.bundles a).MapsNonNil →
      ∃ s', runCalls pool (some a) cs s = .ok s' ∧
        ∀ f : MapField, f.proj (s'.bundles a) = f.proj (s.bundles a) := by
  induction cs with
  | nil =>
    intro s _
    exact ⟨s, rfl, fun _ => rfl⟩
  | cons c rest ih =>
    intro s h
    obtain ⟨s1, h1, hf1⟩ := Call.run_keeps_fields pool a c s h
    have hs1 : (s1.bundles a).MapsNonNil := by
      rw [mapsNonNil_iff] at h ⊢
      intro f
      rw [hf1]
      exact h f
    obtain ⟨s2, h2, hf2⟩ := ih s1 hs1
    refine ⟨s2, ?_, fun f => (hf2 f).trans (hf1 f)⟩
    rw [runCalls, h1]
    exact h2

theorem New_mapsNonNil (s : State σ β) : ((New s).2.bundles s.nextBundle).MapsNonNil := by
  rw [New_bundle]
  simp [ProtocolBuffers.MapsNonNil]

theorem dropBuffers_dropBuffers (b : ProtocolBuffers β) :
    b.dropBuffers.dropBuffers = b.dropBuffers := rfl

theorem State.cleared_of_empty (s : State σ β) (m : MapRef)
    (h : ∀ x, m = some x → s.maps x = []) : s.cleared m = s := by
  cases m with
  | none => rfl
  | some x =>
    have hx : s.maps x = [] := h x rfl
    simp only [State.cleared]
    rw [← hx, Function.update_eq_self]

/-- Applying the closed form of `Reset` a second time changes nothing. -/
theorem afterReset_afterReset (a : Nat) (s : State σ β) :
    (s.afterReset a).afterReset a = s.afterReset a := by
  have hb : (s.afterReset a).bundles a = (s.bundles a).dropBuffers := afterReset_bundle a s
  have hm : ∀ (m : MapRef),
      (m = (s.bundles a).reqHeaders ∨ m = (s.bundles a).reqTrailers ∨
        m = (s.bundles a).rspHeaders ∨ m = (s.bundles a).rspTrailers) →
      ∀ x, m = some x → (s.afterReset a).maps x = [] := by
    intro m hmem x hx
    rw [afterReset_maps, if_pos]
    subst hx
    rcases hmem with h | h | h | h
    · exact Or.inl h.symm
    · exact Or.inr (Or.inl h.symm)
    · exact Or.inr (Or.inr (Or.inl h.symm))
    · exact Or.inr (Or.inr (Or.inr h.symm))
  have h0 : ({ (s.afterReset a) with
      bundles := Function.update (s.afterReset a).bundles a
        ((s.afterReset a).bundles a).dropBuffers } : State σ β) = s.afterReset a := by
    rw [hb, dropBuffers_dropBuffers, ← hb, Function.update_eq_self]
  rw [State.afterReset.eq_1 (s.afterReset a), h0, hb]
  simp only [ProtocolBuffers.dropBuffers]
  rw [State.cleared_of_empty _ _ (hm _ (Or.inl rfl)),
    State.cleared_of_empty _ _ (hm _ (Or.inr (Or.inl rfl))),
    State.cleared_of_empty _ _ (hm _ (Or.inr (Or.inr (Or.inl rfl)))),
    State.cleared_of_empty _ _ (hm _ (Or.inr (Or.inr (Or.inr rfl))))]

/-! ## Properties of the lifecycle adapter and the accessors -/

/-- C1: for every bundle (at any address `a`, in any prior state `s`), `Reset`
returns normally and afterwards all four maps have size zero, all four buffer
slots are nil, and a lookup of any key through any of the four map accessors
finds nothing. -/
theorem reset_clears_bundle (a : Nat) (s : State σ β) :
    ∃ s' : State σ β, Reset (.protocolBuffers (some a)) s = .ok s' ∧
      (s'.mapLen (s'.bundles a).reqHeaders = 0 ∧ s'.mapLen (s'.bundles a).reqTrailers = 0 ∧
        s'.mapLen (s'.bundles a).rspHeaders = 0 ∧ s'.mapLen (s'.bundles a).rspTrailers = 0) ∧
      ((s'.bundles a).reqData = none ∧ (s'.bundles a).reqHeader = none ∧
        (s'.bundles a).rspData = none ∧ (s'.bundles a).rspHeader = none) ∧
      ∀ k : String,
        (∃ m, GetReqHeaders (some a) s' = .ok (m, s') ∧ s'.mapIndex m k = none) ∧
        (∃ m, GetReqTailers (some a) s' = .ok (m, s') ∧ s'.mapIndex m k = none) ∧
        (∃ m, GetRspHeaders (some a) s' = .ok (m, s') ∧ s'.mapIndex m k = none) ∧
        (∃ m, GetRspTailers (some a) s' = .ok (m, s') ∧ s'.mapIndex m k = none) := by
  refine ⟨s.afterReset a, Reset_eq a s, ?_, ?_, ?_⟩
  · rw [afterReset_bundle]
    exact ⟨(afterReset_mapLen a s _ (Or.inl rfl)).1,
      (afterReset_mapLen a s _ (Or.inr (Or.inl rfl))).1,
      (afterReset_mapLen a s _ (Or.inr (Or.inr (Or.inl rfl)))).1,
      (afterReset_mapLen a s _ (Or.inr (Or.inr (Or.inr rfl)))).1⟩
  · rw [afterReset_bundle]
    exact ⟨rfl, rfl, rfl, rfl⟩
  · intro k
    refine ⟨⟨_, rfl, ?_⟩, ⟨_, rfl, ?_⟩, ⟨_, rfl, ?_⟩, ⟨_, rfl, ?_⟩⟩
    · rw [afterReset_bundle]
      exact (afterReset_mapLen a s _ (Or.inl rfl)).2 k
    · rw [afterReset_bundle]
      exact (afterReset_mapLen a s _ (Or.inr (Or.inl rfl))).2 k
    · rw [afterReset_bundle]
      exact (afterReset_mapLen a s _ (Or.inr (Or.inr (Or.inl rfl)))).2 k
    · rw [afterReset_bundle]
      exact (afterReset_mapLen a s _ (Or.inr (Or.inr (Or.inr rfl)))).2 k

/-- C2 (the code departs from the claim): on an argument whose dynamic type is
not `*ProtocolBuffers` (a value of another type, or the nil interface) the
comma-ok assertion leaves `p` nil and the first store `p.reqData = nil` panics
with a nil pointer dereference, in every state. -/
theorem reset_wrong_type_panics (typeName : String) (s : State σ β) :
    Reset (.other typeName) s = .error .nilPointerDereference ∧
      Reset .nilInterface s = .error .nilPointerDereference := by
  exact ⟨rfl, rfl⟩

/-- C3: for every pool, bundle, state and integer size, each buffer accessor
asks the pool for `size` when `size > 0` and for its default otherwise, 1024
for `GetReqData` and `GetRspData`, 32 for `GetReqHeader` and `GetRspHeader`, and
returns the buffer the pool hands out for that request.  Hence, for a pool
whose buffers have at least the requested capacity, and exactly 1024 when 1024
is requested, `GetReqData(0)` and `GetReqData(-5)` yield capacity 1024 and
`GetReqData(5000)` yields capacity at least 5000. -/
theorem accessor_requested_capacity (pool : BufferPool σ β) (cap : β → Int) (a : Nat)
    (size : Int) (s : State σ β) :
    ((∃ s', GetReqData pool (some a) size s =
        .ok (some (pool.GetIoBuffer (if 0 < size then size else 1024) s.pool).1, s')) ∧
      (∃ s', GetRspData pool (some a) size s =
        .ok (some (pool.GetIoBuffer (if 0 < size then size else 1024) s.pool).1, s')) ∧
      (∃ s', GetReqHeader pool (some a) size s =
        .ok (some (pool.GetIoBuffer (if 0 < size then size else 32) s.pool).1, s')) ∧
      (∃ s', GetRspHeader pool (some a) size s =
        .ok (some (pool.GetIoBuffer (if 0 < size then size else 32) s.pool).1, s'))) ∧
    ((∀ n st, n ≤ cap (pool.GetIoBuffer n st).1) →
      (∀ st, cap (pool.GetIoBuffer 1024 st).1 = 1024) →
      (∃ b s', GetReqData pool (some a) 0 s = .ok (some b, s') ∧ cap b = 1024) ∧
      (∃ b s', GetReqData pool (some a) (-5) s = .ok (some b, s') ∧ cap b = 1024) ∧
      (∃ b s', GetReqData pool (some a) 5000 s = .ok (some b, s') ∧ 5000 ≤ cap b)) := by
  refine ⟨⟨?_, ?_, ?_, ?_⟩, ?_⟩
  · rw [← defaultDataSize_eq, ← requested_eq]
    exact ⟨_, GetReqData_eq pool a size s⟩
  · rw [← defaultDataSize_eq, ← requested_eq]
    exact ⟨_, GetRspData_eq pool a size s⟩
  · rw [← defaultHeaderSize_eq, ← requested_eq]
    exact ⟨_, GetReqHeader_eq pool a size s⟩
  · rw [← defaultHeaderSize_eq, ← requested_eq]
    exact ⟨_, GetRspHeader_eq pool a size s⟩
  · intro hge hdef
    refine ⟨⟨_, _, GetReqData_eq pool a 0 s, ?_⟩, ⟨_, _, GetReqData_eq pool a (-5) s, ?_⟩,
      ⟨_, _, GetReqData_eq pool a 5000 s, ?_⟩⟩
    · simpa [defaultDataSize_eq] using hdef s.pool
    · simpa [defaultDataSize_eq] using hdef s.pool
    · simpa using hge 5000 s.pool

/-- C3 at the example pool, whose buffers have exactly the requested capacity:
the assumptions on the pool hold and `GetReqData` yields capacities 1024, 1024
and at least 5000. -/
theorem accessor_requested_capacity_witness :
    (∀ n st, n ≤ exampleCap (examplePool.GetIoBuffer n st).1) ∧
      (∀ st, exampleCap (examplePool.GetIoBuffer 1024 st).1 = 1024) ∧
      (∃ b s', GetReqData examplePool (some 0) 0 exampleBusyState = .ok (some b, s') ∧
        exampleCap b = 1024) ∧
      (∃ b s', GetReqData examplePool (some 0) (-5) exampleBusyState = .ok (some b, s') ∧
        exampleCap b = 1024) ∧
      (∃ b s', GetReqData examplePool (some 0) 5000 exampleBusyState = .ok (some b, s') ∧
        5000 ≤ exampleCap b) :=
  ⟨fun _ _ => le_refl _, fun _ => rfl,
    (accessor_requested_capacity examplePool exampleCap 0 7 exampleBusyState).2
      (fun _ _ => le_refl _) (fun _ => rfl)⟩

/-- C4: in every state, `New` returns a pointer to a bundle whose four maps
(`reqHeaders`, `rspHeaders`, `reqTrailers`, `rspTrailers`) are non-nil and
empty and whose four buffer slots (`reqData`, `reqHeader`, `rspData`,
`rspHeader`) are nil. -/
theorem new_bundle_is_pristine (s : State σ β) :
    ∃ (a : Nat) (s' : State σ β), New s = (.protocolBuffers (some a), s') ∧
      ((s'.bundles a).reqHeaders ≠ none ∧ (s'.bundles a).rspHeaders ≠ none ∧
        (s'.bundles a).reqTrailers ≠ none ∧ (s'.bundles a).rspTrailers ≠ none) ∧
      (s'.mapLen (s'.bundles a).reqHeaders = 0 ∧ s'.mapLen (s'.bundles a).rspHeaders = 0 ∧
        s'.mapLen (s'.bundles a).reqTrailers = 0 ∧ s'.mapLen (s'.bundles a).rspTrailers = 0) ∧
      (∀ k, s'.mapIndex (s'.bundles a).reqHeaders k = none ∧
        s'.mapIndex (s'.bundles a).rspHeaders k = none ∧
        s'.mapIndex (s'.bundles a).reqTrailers k = none ∧
        s'.mapIndex (s'.bundles a).rspTrailers k = none) ∧
      ((s'.bundles a).reqData = none ∧ (s'.bundles a).reqHeader = none ∧
        (s'.bundles a).rspData = none ∧ (s'.bundles a).rspHeader = none) := by
  refine ⟨s.nextBundle, (New s).2, rfl, ?_, ?_, ?_, ?_⟩
  · rw [New_bundle]
    simp
  · rw [New_bundle]
    exact ⟨(New_mapLen s 0 (by omega)).1, (New_mapLen s 1 (by omega)).1,
      (New_mapLen s 2 (by omega)).1, (New_mapLen s 3 (by omega)).1⟩
  · intro k
    rw [New_bundle]
    exact ⟨(New_mapLen s 0 (by omega)).2 k, (New_mapLen s 1 (by omega)).2 k,
      (New_mapLen s 2 (by omega)).2 k, (New_mapLen s 3 (by omega)).2 k⟩
  · rw [New_bundle]
    exact ⟨rfl, rfl, rfl, rfl⟩

/-- C5: for every bundle (address `a`, prior state `s`) and every state `t` in
which `New` is called, the observation of the bundle after `Reset` (emptiness
of each of the four maps, nil-ness of each of the four buffer slots) equals
the observation of the bundle `New` returns. -/
theorem reset_observed_as_new (a : Nat) (s t : State σ β) :
    ∃ (s' : State σ β) (b : Nat) (t' : State σ β),
      Reset (.protocolBuffers (some a)) s = .ok s' ∧
      New t = (.protocolBuffers (some b), t') ∧
      s'.observe a = t'.observe b ∧
      t'.observe b =
        { reqHeadersEmpty := true, reqTrailersEmpty := true, rspHeadersEmpty := true,
          rspTrailersEmpty := true, reqDataNil := true, reqHeaderNil := true,
          rspDataNil := true, rspHeaderNil := true } := by
  have hnew : (New t).2.observe t.nextBundle =
      { reqHeadersEmpty := true, reqTrailersEmpty := true, rspHeadersEmpty := true,
        rspTrailersEmpty := true, reqDataNil := true, reqHeaderNil := true,
        rspDataNil := true, rspHeaderNil := true } := by
    have h0 : (New t).2.mapLen (some t.nextMap) = 0 := (New_mapLen t 0 (by omega)).1
    simp only [State.observe, New_bundle, h0, (New_mapLen t 1 (by omega)).1,
      (New_mapLen t 2 (by omega)).1, (New_mapLen t 3 (by omega)).1]
    simp [ProtocolBuffers.zero]
  have hreset : (s.afterReset a).observe a =
      { reqHeadersEmpty := true, reqTrailersEmpty := true, rspHeadersEmpty := true,
        rspTrailersEmpty := true, reqDataNil := true, reqHeaderNil := true,
        rspDataNil := true, rspHeaderNil := true } := by
    simp only [State.observe, afterReset_bundle, ProtocolBuffers.dropBuffers,
      (afterReset_mapLen a s _ (Or.inl rfl)).1,
      (afterReset_mapLen a s _ (Or.inr (Or.inl rfl))).1,
      (afterReset_mapLen a s _ (Or.inr (Or.inr (Or.inl rfl)))).1,
      (afterReset_mapLen a s _ (Or.inr (Or.inr (Or.inr rfl)))).1]
    simp
  exact ⟨s.afterReset a, t.nextBundle, (New t).2, Reset_eq a s, rfl, hreset.trans hnew.symm,
    hnew⟩

/-- C6: for every pool, bundle, state and size, each buffer accessor writes the
returned buffer into its own slot and leaves the other three buffer slots,
the four map fields, every other bundle and the contents of every map object
unchanged; each map accessor leaves the whole state, hence all eight fields,
unchanged. -/
theorem accessor_slot_independence (pool : BufferPool σ β) (a : Nat) (size : Int)
    (s : State σ β) :
    (∃ r s', GetReqData pool (some a) size s = .ok (r, s') ∧ s'.maps = s.maps ∧
      s'.bundles = Function.update s.bundles a { s.bundles a with reqData := r }) ∧
    (∃ r s', GetReqHeader pool (some a) size s = .ok (r, s') ∧ s'.maps = s.maps ∧
      s'.bundles = Function.update s.bundles a { s.bundles a with reqHeader := r }) ∧
    (∃ r s', GetRspData pool (some a) size s = .ok (r, s') ∧ s'.maps = s.maps ∧
      s'.bundles = Function.update s.bundles a { s.bundles a with rspData := r }) ∧
    (∃ r s', GetRspHeader pool (some a) size s = .ok (r, s') ∧ s'.maps = s.maps ∧
      s'.bundles = Function.update s.bundles a { s.bundles a with rspHeader := r }) ∧
    (∃ m, GetReqHeaders (some a) s = .ok (m, s)) ∧
    (∃ m, GetReqTailers (some a) s = .ok (m, s)) ∧
    (∃ m, GetRspHeaders (some a) s = .ok (m, s)) ∧
    (∃ m, GetRspTailers (some a) s = .ok (m, s)) := by
  refine ⟨⟨_, _, GetReqData_eq pool a size s, rfl, rfl⟩,
    ⟨_, _, GetReqHeader_eq pool a size s, rfl, rfl⟩,
    ⟨_, _, GetRspData_eq pool a size s, rfl, rfl⟩,
    ⟨_, _, GetRspHeader_eq pool a size s, rfl, rfl⟩,
    ⟨_, rfl⟩, ⟨_, rfl⟩, ⟨_, rfl⟩, ⟨_, rfl⟩⟩

/-- C7: for every bundle, state, key and value, each of the four map accessors
is stable: two calls in a row return the same map value, namely the bundle's
own field, without changing the state, and an entry inserted through the
first result is found through the second (on a nil map the insertion itself
panics, so there is no entry to see). -/
theorem map_accessors_stable (a : Nat) (s : State σ β) (k v : String) :
    MapAccessorStable GetReqHeaders (fun b => b.reqHeaders) a s k v ∧
    MapAccessorStable GetReqTailers (fun b => b.reqTrailers) a s k v ∧
    MapAccessorStable GetRspHeaders (fun b => b.rspHeaders) a s k v ∧
    MapAccessorStable GetRspTailers (fun b => b.rspTrailers) a s k v := by
  have key : ∀ (get : Ptr → State σ β → Except Panic (MapRef × State σ β))
      (field : ProtocolBuffers β → MapRef),
      (∀ u : State σ β, get (some a) u = .ok (field (u.bundles a), u)) →
      MapAccessorStable get field a s k v := by
    intro get field hget
    refine ⟨field (s.bundles a), s, field (s.bundles a), s, hget s, hget s, rfl, rfl, rfl,
      rfl, ?_⟩
    cases hf : field (s.bundles a) with
    | none => rfl
    | some m =>
      refine ⟨_, rfl, ?_, ?_⟩
      · simp [State.mapIndex, GoMap.assign, GoMap.index]
      · rw [hget]
        simp [hf]
  exact ⟨key _ _ (fun _ => rfl), key _ _ (fun _ => rfl), key _ _ (fun _ => rfl),
    key _ _ (fun _ => rfl)⟩

/-- C8: the end-to-end scenario, for every pool and every starting state: `New`,
then inserting "host" -> "example.com" into the map `GetReqHeaders` returns,
then `GetReqData(2048)` asks the pool for 2048; after `Reset` the request
headers have size 0 and the `reqData` slot is nil; a following `GetReqData(0)`
asks the pool for exactly 1024.  For a pool whose buffers have at least the
requested capacity, and exactly 1024 when 1024 is requested, the first buffer
has capacity at least 2048 and the last has capacity 1024. -/
theorem end_to_end_scenario (pool : BufferPool σ β) (cap : β → Int) (s0 : State σ β) :
    ∃ (a : Nat) (s1 : State σ β) (m : MapRef) (s2 : State σ β) (b1 : β) (s3 s4 : State σ β)
      (b2 : β) (s5 : State σ β),
      New s0 = (.protocolBuffers (some a), s1) ∧
      GetReqHeaders (some a) s1 = .ok (m, s1) ∧
      s1.mapAssign m "host" "example.com" = .ok s2 ∧
      s2.mapIndex (s2.bundles a).reqHeaders "host" = some "example.com" ∧
      s2.mapLen (s2.bundles a).reqHeaders = 1 ∧
      GetReqData pool (some a) 2048 s2 = .ok (some b1, s3) ∧
      b1 = (pool.GetIoBuffer 2048 s2.pool).1 ∧
      (s3.bundles a).reqData = some b1 ∧
      Reset (.protocolBuffers (some a)) s3 = .ok s4 ∧
      s4.mapLen (s4.bundles a).reqHeaders = 0 ∧
      (s4.bundles a).reqData = none ∧
      GetReqData pool (some a) 0 s4 = .ok (some b2, s5) ∧
      b2 = (pool.GetIoBuffer 1024 s4.pool).1 ∧
      ((∀ n st, n ≤ cap (pool.GetIoBuffer n st).1) →
        (∀ st, cap (pool.GetIoBuffer 1024 st).1 = 1024) →
        2048 ≤ cap b1 ∧ cap b2 = 1024) := by
  have hm : ((New s0).2.bundles s0.nextBundle).reqHeaders = some s0.nextMap := by
    rw [New_bundle]
  have hempty : (New s0).2.maps s0.nextMap = [] := New_maps_fresh s0 0 (by omega)
  refine ⟨s0.nextBundle, (New s0).2, some s0.nextMap, _, _, _, _, _, _, rfl, ?_, rfl, ?_, ?_,
    GetReqData_eq pool _ 2048 _, ?_, ?_, Reset_eq _ _, ?_, ?_, GetReqData_eq pool _ 0 _, ?_, ?_⟩
  · simp [GetReqHeaders, State.load, hm, bind, Except.bind, pure, Except.pure]
  · simp [hm, State.mapIndex, GoMap.assign, GoMap.index]
  · simp [hm, hempty, State.mapLen, GoMap.assign, GoMap.delete, GoMap.len, GoMap.keys]
  · simp
  · simp [State.storeAt]
  · rw [afterReset_bundle]
    exact (afterReset_mapLen _ _ _ (Or.inl rfl)).1
  · rw [afterReset_bundle]
    rfl
  · simp [defaultDataSize_eq]
  · intro hge hdef
    refine ⟨?_, ?_⟩
    · simpa using hge 2048 _
    · simpa [defaultDataSize_eq] using hdef _

/-- C8 at the example pool and the example starting state: the assumptions on
the pool hold and the scenario runs as stated. -/
theorem end_to_end_scenario_witness :
    (∀ n st, n ≤ exampleCap (examplePool.GetIoBuffer n st).1) ∧
      (∀ st, exampleCap (examplePool.GetIoBuffer 1024 st).1 = 1024) ∧
      ∃ (a : Nat) (s1 : State Nat (Int × Nat)) (m : MapRef) (s2 : State Nat (Int × Nat))
        (b1 : Int × Nat) (s3 s4 : State Nat (Int × Nat)) (b2 : Int × Nat)
        (s5 : State Nat (Int × Nat)),
        New exampleState = (.protocolBuffers (some a), s1) ∧
        GetReqHeaders (some a) s1 = .ok (m, s1) ∧
        s1.mapAssign m "host" "example.com" = .ok s2 ∧
        GetReqData examplePool (some a) 2048 s2 = .ok (some b1, s3) ∧
        Reset (.protocolBuffers (some a)) s3 = .ok s4 ∧
        s4.mapLen (s4.bundles a).reqHeaders = 0 ∧
        (s4.bundles a).reqData = none ∧
        GetReqData examplePool (some a) 0 s4 = .ok (some b2, s5) ∧
        2048 ≤ exampleCap b1 ∧ exampleCap b2 = 1024 := by
  refine ⟨fun _ _ => le_refl _, fun _ => rfl, ?_⟩
  obtain ⟨a, s1, m, s2, b1, s3, s4, b2, s5, h1, h2, h3, _, _, h6, _, _, h9, h10, h11, h12, _,
    h14⟩ := end_to_end_scenario examplePool exampleCap exampleState
  exact ⟨a, s1, m, s2, b1, s3, s4, b2, s5, h1, h2, h3, h6, h9, h10, h11, h12,
    h14 (fun _ _ => le_refl _) (fun _ => rfl)⟩

/-- C9: for every bundle, `Reset` leaves each of the four map fields holding the
map value it held before (the field is never reassigned), allocates no map
object, and the map object behind each of those values is empty afterwards
(it was cleared in place). -/
theorem reset_preserves_map_identity (a : Nat) (s : State σ β) :
    ∃ s' : State σ β, Reset (.protocolBuffers (some a)) s = .ok s' ∧
      ((s'.bundles a).reqHeaders = (s.bundles a).reqHeaders ∧
        (s'.bundles a).reqTrailers = (s.bundles a).reqTrailers ∧
        (s'.bundles a).rspHeaders = (s.bundles a).rspHeaders ∧
        (s'.bundles a).rspTrailers = (s.bundles a).rspTrailers) ∧
      s'.nextMap = s.nextMap ∧
      (s'.mapLen (s.bundles a).reqHeaders = 0 ∧ s'.mapLen (s.bundles a).reqTrailers = 0 ∧
        s'.mapLen (s.bundles a).rspHeaders = 0 ∧ s'.mapLen (s.bundles a).rspTrailers = 0) := by
  refine ⟨s.afterReset a, Reset_eq a s, ?_, ?_, ?_⟩
  · rw [afterReset_bundle]
    exact ⟨rfl, rfl, rfl, rfl⟩
  · simp [State.afterReset, State.cleared_nextMap]
  · exact ⟨(afterReset_mapLen a s _ (Or.inl rfl)).1,
      (afterReset_mapLen a s _ (Or.inr (Or.inl rfl))).1,
      (afterReset_mapLen a s _ (Or.inr (Or.inr (Or.inl rfl)))).1,
      (afterReset_mapLen a s _ (Or.inr (Or.inr (Or.inr rfl)))).1⟩

/-- C10: for every pool, bundle, state (own slot set or nil) and size, each
buffer accessor calls the pool once, on the pool state it finds, stores the
buffer the pool hands out in its own slot, returns exactly that buffer, and
leaves the pool in the state the call produced; the previous content of the
slot plays no part. -/
theorem accessor_always_acquires (pool : BufferPool σ β) (a : Nat) (size : Int)
    (s : State σ β) :
    (∃ s', GetReqData pool (some a) size s =
        .ok (some (pool.GetIoBuffer (if size ≤ 0 then defaultDataSize else size) s.pool).1, s') ∧
      (s'.bundles a).reqData =
        some (pool.GetIoBuffer (if size ≤ 0 then defaultDataSize else size) s.pool).1 ∧
      s'.pool = (pool.GetIoBuffer (if size ≤ 0 then defaultDataSize else size) s.pool).2) ∧
    (∃ s', GetReqHeader pool (some a) size s =
        .ok (some (pool.GetIoBuffer (if size ≤ 0 then defaultHeaderSize else size) s.pool).1, s') ∧
      (s'.bundles a).reqHeader =
        some (pool.GetIoBuffer (if size ≤ 0 then defaultHeaderSize else size) s.pool).1 ∧
      s'.pool = (pool.GetIoBuffer (if size ≤ 0 then defaultHeaderSize else size) s.pool).2) ∧
    (∃ s', GetRspData pool (some a) size s =
        .ok (some (pool.GetIoBuffer (if size ≤ 0 then defaultDataSize else size) s.pool).1, s') ∧
      (s'.bundles a).rspData =
        some (pool.GetIoBuffer (if size ≤ 0 then defaultDataSize else size) s.pool).1 ∧
      s'.pool = (pool.GetIoBuffer (if size ≤ 0 then defaultDataSize else size) s.pool).2) ∧
    (∃ s', GetRspHeader pool (some a) size s =
        .ok (some (pool.GetIoBuffer (if size ≤ 0 then defaultHeaderSize else size) s.pool).1, s') ∧
      (s'.bundles a).rspHeader =
        some (pool.GetIoBuffer (if size ≤ 0 then defaultHeaderSize else size) s.pool).1 ∧
      s'.pool = (pool.GetIoBuffer (if size ≤ 0 then defaultHeaderSize else size) s.pool).2) := by
  refine ⟨⟨_, GetReqData_eq pool a size s, ?_, rfl⟩, ⟨_, GetReqHeader_eq pool a size s, ?_, rfl⟩,
    ⟨_, GetRspData_eq pool a size s, ?_, rfl⟩, ⟨_, GetRspHeader_eq pool a size s, ?_, rfl⟩⟩ <;>
  simp [State.storeAt]

/-- C11: for every pool, every state in which `New` is called and every finite
sequence of buffer accessor calls, map accessor calls, insertions into and
deletions from the bundle's maps and `Reset` calls, the run does not panic and
in the state it reaches all four map fields of the bundle are non-nil, so
each of the four map accessors returns a non-nil map. -/
theorem reachable_maps_non_nil (pool : BufferPool σ β) (s0 : State σ β) (cs : List Call) :
    ∃ (a : Nat) (s1 s' : State σ β), New s0 = (.protocolBuffers (some a), s1) ∧
      runCalls pool (some a) cs s1 = .ok s' ∧
      (s'.bundles a).MapsNonNil ∧
      (∃ m, GetReqHeaders (some a) s' = .ok (some m, s')) ∧
      (∃ m, GetReqTailers (some a) s' = .ok (some m, s')) ∧
      (∃ m, GetRspHeaders (some a) s' = .ok (some m, s')) ∧
      (∃ m, GetRspTailers (some a) s' = .ok (some m, s')) := by
  obtain ⟨s', hrun, hf⟩ :=
    runCalls_keeps_fields pool s0.nextBundle cs (New s0).2 (New_mapsNonNil s0)
  have hnn : ∀ f : MapField, ∃ m, f.proj (s'.bundles s0.nextBundle) = some m := by
    intro f
    apply Option.ne_none_iff_exists'.mp
    rw [hf]
    exact (mapsNonNil_iff _).mp (New_mapsNonNil s0) f
  refine ⟨s0.nextBundle, (New s0).2, s', rfl, hrun, (mapsNonNil_iff _).mpr ?_, ?_, ?_, ?_, ?_⟩
  · intro f
    obtain ⟨m, hm⟩ := hnn f
    rw [hm]
    exact Option.some_ne_none m
  · obtain ⟨m, hm⟩ := hnn .reqHeaders
    exact ⟨m, by rw [← hm]; rfl⟩
  · obtain ⟨m, hm⟩ := hnn .reqTrailers
    exact ⟨m, by rw [← hm]; rfl⟩
  · obtain ⟨m, hm⟩ := hnn .rspHeaders
    exact ⟨m, by rw [← hm]; rfl⟩
  · obtain ⟨m, hm⟩ := hnn .rspTrailers
    exact ⟨m, by rw [← hm]; rfl⟩

/-- C12: for every integer size, zero and negative ones included, there are
capacities `nData` and `nHeader`, both at least 1, such that with every pool,
bundle and state `GetReqData` and `GetRspData` pass `nData` to
`buffer.GetIoBuffer` and `GetReqHeader` and `GetRspHeader` pass `nHeader`. -/
theorem requested_capacity_positive (size : Int) :
    ∃ nData nHeader : Int, 1 ≤ nData ∧ 1 ≤ nHeader ∧
      ∀ (σ β : Type) (pool : BufferPool σ β) (a : Nat) (s : State σ β),
        (∃ s', GetReqData pool (some a) size s =
          .ok (some (pool.GetIoBuffer nData s.pool).1, s') ∧
          s'.pool = (pool.GetIoBuffer nData s.pool).2) ∧
        (∃ s', GetRspData pool (some a) size s =
          .ok (some (pool.GetIoBuffer nData s.pool).1, s') ∧
          s'.pool = (pool.GetIoBuffer nData s.pool).2) ∧
        (∃ s', GetReqHeader pool (some a) size s =
          .ok (some (pool.GetIoBuffer nHeader s.pool).1, s') ∧
          s'.pool = (pool.GetIoBuffer nHeader s.pool).2) ∧
        (∃ s', GetRspHeader pool (some a) size s =
          .ok (some (pool.GetIoBuffer nHeader s.pool).1, s') ∧
          s'.pool = (pool.GetIoBuffer nHeader s.pool).2) := by
  refine ⟨if size ≤ 0 then defaultDataSize else size,
    if size ≤ 0 then defaultHeaderSize else size, ?_, ?_, ?_⟩
  · split_ifs with h
    · rw [defaultDataSize_eq]; decide
    · omega
  · split_ifs with h
    · rw [defaultHeaderSize_eq]; decide
    · omega
  · intro σ β pool a s
    exact ⟨⟨_, GetReqData_eq pool a size s, rfl⟩, ⟨_, GetRspData_eq pool a size s, rfl⟩,
      ⟨_, GetReqHeader_eq pool a size s, rfl⟩, ⟨_, GetRspHeader_eq pool a size s, rfl⟩⟩

/-- C13: for every bundle, in every state (nil map fields included), `Reset`
returns normally, and `Reset` applied to the resulting state returns normally
with that same state: the second application changes nothing. -/
theorem reset_idempotent (a : Nat) (s : State σ β) :
    ∃ s1 : State σ β, Reset (.protocolBuffers (some a)) s = .ok s1 ∧
      Reset (.protocolBuffers (some a)) s1 = .ok s1 := by
  refine ⟨s.afterReset a, Reset_eq a s, ?_⟩
  rw [Reset_eq, afterReset_afterReset]

end Protocol
